import Mathlib

/-!
Shallow embedding of the media-streaming bridge in `src/main.py`
(Reachy Mini ↔ Gemini Live chat).  Audio samples are modelled as exact
rationals (the Python code works in float32/float64; all the properties
verified here concern exact arithmetic identities, lengths and control
flow, for which ℚ is a faithful model of the float pipeline).  Machine
`int16` values are modelled as `ℤ` with an explicit wrap modulo 2^16.
-/

namespace GeminiLive

/-- Configuration constant from main.py line 23: Gemini expects 16 kHz mono in. -/
def SAMPLE_RATE_INPUT : ℕ := 16000

/-- Configuration constant from main.py line 24: Gemini outputs 24 kHz. -/
def SAMPLE_RATE_OUTPUT : ℕ := 24000

/-- Configuration constant from main.py line 25: video is throttled to 1 FPS. -/
def VIDEO_FPS : ℕ := 1

/-- Model of a numpy array as used by `get_audio_sample`: either a 1-D
array of samples, or a 2-D `rows × cols` array stored row-major
(`d2 rows cols data` with `data.length = rows * cols` for well-formed
arrays). -/
inductive NDArray where
  | d1 : List ℚ → NDArray
  | d2 : ℕ → ℕ → List ℚ → NDArray
deriving DecidableEq

/-- Python `len` on a numpy array: the first dimension. -/
def NDArray.len : NDArray → ℕ
  | .d1 xs => xs.length
  | .d2 r _ _ => r

/-- numpy `flatten` (row-major data, unchanged for a 1-D array). -/
def NDArray.flatten : NDArray → List ℚ
  | .d1 xs => xs
  | .d2 _ _ data => data

/-- `np.mean(samples, axis=1)` specialised to two columns: the per-frame
average of consecutive pairs of a row-major `n × 2` data list. -/
def avgPairs : List ℚ → List ℚ
  | a :: b :: rest => (a + b) / 2 :: avgPairs rest
  | _ => []

/-- main.py lines 104-108: `if len(samples.shape) > 1 and samples.shape[1] == 2:
mono_samples = np.mean(samples, axis=1) else: mono_samples = samples.flatten()`. -/
def toMono : NDArray → List ℚ
  | .d1 xs => xs
  | .d2 _ c data => if c = 2 then avgPairs data else data

/-- Model of `scipy.signal.resample(x, num)`: the library call (external to
this repository) whose documented contract is to return exactly `num`
resampled samples; modelled here by nearest-sample resampling, which has
the same output-length contract.  Every property proved below depends only
on the output length, never on the interpolated values. -/
def resample (x : List ℚ) (num : ℕ) : List ℚ :=
  (List.range num).map (fun i => x.getD (i * x.length / num) 0)

/-- The conditional resampling step as written at main.py lines 111-113 and
180-182: `if fromRate != toRate: num = int(len(xs) * toRate / fromRate);
xs = resample(xs, num)`.  Python's `int()` of the (here exact) float
quotient truncates, i.e. takes the floor of `len * toRate / fromRate`,
which ℕ-division expresses. -/
def resampleStep (xs : List ℚ) (fromRate toRate : ℕ) : List ℚ :=
  if fromRate ≠ toRate then resample xs (xs.length * toRate / fromRate) else xs

/-- Truncation toward zero of a rational, as C/numpy float→int conversion does. -/
def truncQ (q : ℚ) : ℤ := if 0 ≤ q then ⌊q⌋ else ⌈q⌉

/-- Wrap an integer into the signed 16-bit range modulo 2^16, the behaviour
of `astype(np.int16)` on an out-of-range (in-int64-range) value. -/
def toInt16 (n : ℤ) : ℤ := (n + 32768) % 65536 - 32768

/-- main.py line 116: `(mono_samples * 32767).astype(np.int16)` applied to one
sample: scale by 32767, truncate toward zero, wrap into int16. -/
def floatToPCM16 (s : ℚ) : ℤ := toInt16 (truncQ (s * 32767))

/-- main.py lines 176-177: `np.frombuffer(audio_data, dtype=np.int16)
.astype(np.float32) / 32767.0` applied to one PCM value. -/
def pcm16ToFloat (p : ℤ) : ℚ := (p : ℚ) / 32767

/-- main.py lines 104-116, the audio-up pipeline applied to one device block:
fold to mono, resample device-rate → 16 kHz when the rates differ, convert
to 16-bit PCM.  The result is the chunk handed to
`session.send_realtime_input` (tagged `audio/pcm;rate=16000`). -/
def audioUpChunk (samples : NDArray) (deviceRate : ℕ) : List ℤ :=
  (resampleStep (toMono samples) deviceRate SAMPLE_RATE_INPUT).map floatToPCM16

/-- main.py lines 176-188, the audio-down pipeline applied to one inbound PCM
payload: convert PCM16 → float, resample 24 kHz → device output rate when
the rates differ, duplicate mono to stereo (`np.column_stack`).  The result
is the chunk handed to `push_audio_sample`. -/
def audioDownStereo (pcm : List ℤ) (outRate : ℕ) : List (ℚ × ℚ) :=
  (resampleStep (pcm.map pcm16ToFloat) SAMPLE_RATE_OUTPUT outRate).map
    (fun x => (x, x))

theorem resample_length (x : List ℚ) (num : ℕ) : (resample x num).length = num := by
  simp [resample]

theorem resampleStep_length (xs : List ℚ) (fromRate toRate : ℕ)
    (h : 0 < fromRate) :
    (resampleStep xs fromRate toRate).length = xs.length * toRate / fromRate := by
  unfold resampleStep
  by_cases hne : fromRate = toRate
  · subst hne
    simp [Nat.mul_div_cancel _ h]
  · simp [hne, resample_length]

/-- C1: every chunk handed to the Session Client for outbound send is at the
16 kHz wire-in rate — its sample count is exactly the device block's duration
re-expressed at 16000 Hz (`⌊len·16000/deviceRate⌋`), and when the device rate
already equals 16000 the block passes through without resampling; symmetrically
every chunk handed to device playback has the inbound payload's duration
re-expressed at the device's native output rate, with pass-through when that
rate is 24000.  No chunk crosses either boundary at an unconverted rate. -/
theorem audioChunk_rates_converted (samples : NDArray) (deviceRate : ℕ)
    (pcm : List ℤ) (outRate : ℕ) (hd : 0 < deviceRate) :
    (audioUpChunk samples deviceRate).length
        = (toMono samples).length * SAMPLE_RATE_INPUT / deviceRate
    ∧ (deviceRate = SAMPLE_RATE_INPUT →
        audioUpChunk samples deviceRate = (toMono samples).map floatToPCM16)
    ∧ (audioDownStereo pcm outRate).length
        = pcm.length * outRate / SAMPLE_RATE_OUTPUT
    ∧ (outRate = SAMPLE_RATE_OUTPUT →
        audioDownStereo pcm outRate
          = (pcm.map pcm16ToFloat).map (fun x => (x, x))) := by
  refine ⟨?_, ?_, ?_, ?_⟩
  · simp [audioUpChunk, resampleStep_length _ _ _ hd]
  · intro he
    simp [audioUpChunk, resampleStep, he]
  · have h24 : (0 : ℕ) < SAMPLE_RATE_OUTPUT := by norm_num [SAMPLE_RATE_OUTPUT]
    simp [audioDownStereo, resampleStep_length _ _ _ h24]
  · intro he
    simp [audioDownStereo, resampleStep, he]

theorem audioChunk_rates_converted_witness :
    0 < 32000
      ∧ (audioUpChunk (NDArray.d2 2 2 [1, 1, 0, 0]) 32000).length = 1 := by
  refine ⟨by norm_num, ?_⟩
  have h := (audioChunk_rates_converted (NDArray.d2 2 2 [1, 1, 0, 0]) 32000
    [] 24000 (by norm_num)).1
  rw [h]
  rfl

/-- C2 counterexample: the resampling step at `fromRate = 32000`,
`toRate = 16000` (both positive, distinct) on a 3-sample buffer produces
`int(3·16000/32000) = int(1.5) = 1` output sample, not
`round(3·16000/32000) = 2` as the claim states. -/
theorem resampleStep_length_not_round :
    ((resampleStep [0, 0, 0] 32000 16000).length : ℤ)
      ≠ round ((3 * 16000 : ℚ) / 32000) := by
  have h1 : (resampleStep [0, 0, 0] 32000 16000).length = 1 := by
    rw [resampleStep_length _ _ _ (by norm_num)]
    rfl
  rw [h1]
  norm_num [round_eq]

/-- C2 amended: for rates `fromRate ≠ toRate` (with `fromRate > 0`) the
resampling step produces exactly `⌊len·toRate/fromRate⌋` output samples
(Python `int()` truncation, not rounding); the output length is deterministic
from the input length and the two rates alone; when `fromRate = toRate` the
step is the identity. -/
theorem resampleStep_spec (xs : List ℚ) (fromRate toRate : ℕ)
    (h : 0 < fromRate) :
    (fromRate ≠ toRate →
        (resampleStep xs fromRate toRate).length
          = xs.length * toRate / fromRate)
    ∧ (fromRate = toRate → resampleStep xs fromRate toRate = xs)
    ∧ ∀ ys : List ℚ, ys.length = xs.length →
        (resampleStep ys fromRate toRate).length
          = (resampleStep xs fromRate toRate).length := by
  refine ⟨fun _ => resampleStep_length xs fromRate toRate h, ?_, ?_⟩
  · intro he
    simp [resampleStep, he]
  · intro ys hlen
    rw [resampleStep_length _ _ _ h, resampleStep_length _ _ _ h, hlen]

theorem truncQ_sub_le (q : ℚ) : |(truncQ q : ℚ) - q| ≤ 1 := by
  unfold truncQ
  by_cases h : 0 ≤ q
  · rw [if_pos h]
    have h1 : (⌊q⌋ : ℚ) ≤ q := Int.floor_le q
    have h2 : q - 1 < (⌊q⌋ : ℚ) := Int.sub_one_lt_floor q
    rw [abs_le]
    constructor <;> linarith
  · rw [if_neg h]
    have h1 : q ≤ (⌈q⌉ : ℚ) := Int.le_ceil q
    have h2 : (⌈q⌉ : ℚ) < q + 1 := Int.ceil_lt_add_one q
    rw [abs_le]
    constructor <;> linarith

theorem truncQ_bounds {q : ℚ} (h1 : -32767 ≤ q) (h2 : q ≤ 32767) :
    -32768 ≤ truncQ q ∧ truncQ q ≤ 32767 := by
  unfold truncQ
  by_cases h : 0 ≤ q
  · rw [if_pos h]
    constructor
    · have : (0 : ℤ) ≤ ⌊q⌋ := Int.floor_nonneg.mpr h
      omega
    · have : (⌊q⌋ : ℚ) ≤ 32767 := le_trans (Int.floor_le q) h2
      exact_mod_cast this
  · rw [if_neg h]
    constructor
    · have : (-32767 : ℚ) ≤ (⌈q⌉ : ℚ) := le_trans h1 (Int.le_ceil q)
      have h3 : (-32767 : ℤ) ≤ ⌈q⌉ := by exact_mod_cast this
      omega
    · have hq0 : q ≤ ((0 : ℤ) : ℚ) := by push_cast; linarith [lt_of_not_le h]
      have : ⌈q⌉ ≤ 0 := Int.ceil_le.mpr hq0
      omega

theorem toInt16_eq_of_range {n : ℤ} (h1 : -32768 ≤ n) (h2 : n ≤ 32767) :
    toInt16 n = n := by
  unfold toInt16
  omega

/-- C6: the float→PCM16 and PCM16→float conversions of main.py lines 116 and
176-177 form a bounded round-trip: for every sample `s ∈ [-1, 1]`, scaling by
32767, truncating to int16 (no wrap occurs in range), and dividing back by
32767 lands within `1/32767` of `s`. -/
theorem pcm16_roundtrip (s : ℚ) (h1 : -1 ≤ s) (h2 : s ≤ 1) :
    |pcm16ToFloat (floatToPCM16 s) - s| ≤ 1 / 32767 := by
  have ht1 : -32767 ≤ s * 32767 := by nlinarith
  have ht2 : s * 32767 ≤ 32767 := by nlinarith
  obtain ⟨hb1, hb2⟩ := truncQ_bounds ht1 ht2
  have hwrap : floatToPCM16 s = truncQ (s * 32767) := by
    unfold floatToPCM16
    exact toInt16_eq_of_range hb1 hb2
  rw [pcm16ToFloat, hwrap]
  have habs : |(truncQ (s * 32767) : ℚ) - s * 32767| ≤ 1 := truncQ_sub_le _
  have hrw : (truncQ (s * 32767) : ℚ) / 32767 - s
      = ((truncQ (s * 32767) : ℚ) - s * 32767) / 32767 := by ring
  rw [hrw, abs_div]
  rw [show |(32767 : ℚ)| = 32767 from abs_of_pos (by norm_num)]
  exact div_le_div_of_nonneg_right habs (by norm_num) |>.trans (le_refl _)

theorem pcm16_roundtrip_witness :
    (-1 ≤ (1 / 3 : ℚ)) ∧ ((1 / 3 : ℚ) ≤ 1)
      ∧ |pcm16ToFloat (floatToPCM16 (1 / 3)) - 1 / 3| ≤ 1 / 32767 :=
  ⟨by norm_num, by norm_num,
    pcm16_roundtrip (1 / 3) (by norm_num) (by norm_num)⟩

/-- C10: the float→PCM16 conversion performs no clamping: at `s = 3/2` the
scaled value `49150` exceeds the int16 maximum, the `astype(np.int16)` cast
wraps modulo 2^16 (subtracting 65536), and the output sample `-16386` has the
opposite sign of `s` instead of saturating at 32767. -/
theorem floatToPCM16_no_clamp :
    ∃ s : ℚ, 1 < s
      ∧ floatToPCM16 s = truncQ (s * 32767) - 65536
      ∧ floatToPCM16 s < 0 ∧ floatToPCM16 s ≠ 32767 := by
  have hq : truncQ ((3 / 2 : ℚ) * 32767) = 49150 := by
    unfold truncQ
    rw [if_pos (by norm_num)]
    norm_num
  have h : floatToPCM16 (3 / 2) = -16386 := by
    rw [floatToPCM16, hq]
    decide
  exact ⟨3 / 2, by norm_num, by rw [h, hq]; decide, by rw [h]; decide,
    by rw [h]; decide⟩

theorem resampleStep_spec_witness :
    0 < 32000 ∧ (32000 ≠ 16000 → True)
      ∧ (resampleStep [0, 0, 0] 32000 16000).length = 1 := by
  refine ⟨by norm_num, fun _ => trivial, ?_⟩
  have h := (resampleStep_spec [0, 0, 0] 32000 16000 (by norm_num)).1
    (by norm_num)
  rw [h]
  rfl

theorem avgPairs_length (n : ℕ) :
    ∀ data : List ℚ, data.length = 2 * n → (avgPairs data).length = n := by
  induction n with
  | zero =>
    intro data h
    have hd : data = [] := List.length_eq_zero.mp (by omega)
    subst hd
    rfl
  | succ k ih =>
    intro data h
    rcases data with _ | ⟨a, _ | ⟨b, rest⟩⟩
    · simp only [List.length_nil] at h
      omega
    · simp only [List.length_cons, List.length_nil] at h
      omega
    · have hr : rest.length = 2 * k := by
        simp only [List.length_cons] at h
        omega
      simpa [avgPairs] using ih rest hr

theorem avgPairs_getD (n : ℕ) :
    ∀ (data : List ℚ) (i : ℕ), data.length = 2 * n → i < n →
      (avgPairs data).getD i 0
        = (data.getD (2 * i) 0 + data.getD (2 * i + 1) 0) / 2 := by
  induction n with
  | zero =>
    intro data i _ hi
    omega
  | succ k ih =>
    intro data i h hi
    rcases data with _ | ⟨a, _ | ⟨b, rest⟩⟩
    · simp only [List.length_nil] at h
      omega
    · simp only [List.length_cons, List.length_nil] at h
      omega
    · have hr : rest.length = 2 * k := by
        simp only [List.length_cons] at h
        omega
      cases i with
      | zero => simp [avgPairs]
      | succ j =>
        have hj : j < k := by omega
        have hrec := ih rest j hr hj
        have h2 : 2 * (j + 1) = 2 * j + 1 + 1 := by ring
        show (avgPairs (a :: b :: rest)).getD (j + 1) 0 = _
        rw [show avgPairs (a :: b :: rest) = (a + b) / 2 :: avgPairs rest
          from rfl]
        rw [List.getD_cons_succ, h2, List.getD_cons_succ,
          List.getD_cons_succ, List.getD_cons_succ, List.getD_cons_succ]
        exact hrec

/-- C7: the mono-fold step of main.py lines 104-108.  On an interleaved
stereo block (`n × 2`) it returns the per-frame average of the two channels;
a 1-D input is returned unchanged; an empty input (1-D or `0 × 2`) yields an
empty output.  `toMono` is a total function — there are no error cases. -/
theorem toMono_spec (n : ℕ) (data : List ℚ) (h : data.length = 2 * n) :
    ((toMono (NDArray.d2 n 2 data)).length = n
      ∧ ∀ i, i < n →
          (toMono (NDArray.d2 n 2 data)).getD i 0
            = (data.getD (2 * i) 0 + data.getD (2 * i + 1) 0) / 2)
    ∧ (∀ xs : List ℚ, toMono (NDArray.d1 xs) = xs)
    ∧ toMono (NDArray.d1 []) = ([] : List ℚ)
    ∧ toMono (NDArray.d2 0 2 []) = ([] : List ℚ) := by
  refine ⟨⟨?_, ?_⟩, fun xs => rfl, rfl, rfl⟩
  · simpa [toMono] using avgPairs_length n data h
  · intro i hi
    simpa [toMono] using avgPairs_getD n data i h hi

theorem toMono_spec_witness :
    ([(1 : ℚ), 3].length = 2 * 1)
      ∧ (toMono (NDArray.d2 1 2 [(1 : ℚ), 3])).getD 0 0 = 2 := by
  refine ⟨by simp, ?_⟩
  have h := ((toMono_spec 1 [1, 3] (by simp)).1).2 0 (by norm_num)
  rw [h]
  norm_num

/-- Outcome of one poll of the audio-up duty cycle at main.py lines 95-125,
as seen by the loop body: the device returned no data (`samples is None or
len(samples) == 0`), a usable block that goes through the full pipeline and
send, or some step of the body raised an exception (caught at line 123). -/
inductive AudioEvent where
  | empty
  | block (samples : NDArray)
  | raised
deriving DecidableEq

/-- Observable state of the audio-up duty cycle: `running` is `self.running`
(which the loop body never writes), `iters` counts completed iterations,
`sends` lists the chunks handed to `send_realtime_input` in order, `errors`
counts logged exceptions, `sleepMs` accumulates `asyncio.sleep` time. -/
structure AudioUpState where
  running : Bool
  iters : ℕ
  sends : List (List ℤ)
  errors : ℕ
  sleepMs : ℕ
deriving DecidableEq

/-- One iteration of the `while self.running` loop of `capture_and_send_audio`
(main.py lines 95-125): an empty poll sleeps 10 ms (line 101) and retries; a
good block is processed by the pipeline and sent; an exception is logged and
followed by a 100 ms backoff (line 125).  No branch writes `running`, breaks
out of the loop, or re-raises. -/
def audioUpStep (deviceRate : ℕ) (st : AudioUpState) : AudioEvent → AudioUpState
  | .empty => { st with iters := st.iters + 1, sleepMs := st.sleepMs + 10 }
  | .block samples => { st with iters := st.iters + 1, sends := st.sends ++ [audioUpChunk samples deviceRate] }
  | .raised => { st with iters := st.iters + 1, errors := st.errors + 1, sleepMs := st.sleepMs + 100 }

/-- State on entering the audio-up loop, after `start` set `self.running = True`. -/
def audioUpInit : AudioUpState := ⟨true, 0, [], 0, 0⟩

/-- The audio-up duty cycle run over a finite trace of poll outcomes. -/
def audioUpRun (deviceRate : ℕ) (events : List AudioEvent) : AudioUpState :=
  events.foldl (audioUpStep deviceRate) audioUpInit

/-- The chunk a single poll outcome contributes to the outbound stream. -/
def sentOf (deviceRate : ℕ) : AudioEvent → Option (List ℤ)
  | .block samples => some (audioUpChunk samples deviceRate)
  | _ => none

/-- Test for the events whose exception is caught and logged. -/
def isRaised : AudioEvent → Bool
  | .raised => true
  | _ => false

theorem audioUpRun_foldl (r : ℕ) (st : AudioUpState)
    (events : List AudioEvent) :
    ((events.foldl (audioUpStep r) st).sends
        = st.sends ++ events.filterMap (sentOf r))
      ∧ ((events.foldl (audioUpStep r) st).errors
          = st.errors + events.countP isRaised)
      ∧ ((events.foldl (audioUpStep r) st).running = st.running)
      ∧ ((events.foldl (audioUpStep r) st).iters
          = st.iters + events.length) := by
  induction events generalizing st with
  | nil => simp
  | cons e rest ih =>
    cases e <;>
      simp [audioUpStep, sentOf, isRaised, List.countP_cons, ih,
        List.append_assoc] <;>
      omega

/-- C4: the audio-up duty cycle is self-healing.  Over any trace of poll
outcomes, every successfully polled block is sent (in order) no matter how
many earlier iterations raised — in particular a trace
`... raised, block s ...` still sends the chunk for `s`; each exception is
logged (counted) and adds only a 100 ms backoff; the loop executes one
iteration per event without terminating, and `running` stays true
throughout (the body never flips it). -/
theorem audioUp_error_continues (r : ℕ) (events : List AudioEvent) :
    ((audioUpRun r events).sends = events.filterMap (sentOf r))
      ∧ ((audioUpRun r events).errors = events.countP isRaised)
      ∧ ((audioUpRun r events).running = true)
      ∧ ((audioUpRun r events).iters = events.length) := by
  have h := audioUpRun_foldl r audioUpInit events
  simpa [audioUpRun, audioUpInit] using h

/-- Outcome of one poll of the video-up duty cycle at main.py lines 129-155. -/
inductive VideoEvent where
  | empty
  | frame
  | raised
deriving DecidableEq

/-- Observable state of the video-up duty cycle: `running` is `self.running`,
`iters` counts iterations, `sendCount` the frames handed to
`send_realtime_input`, `elapsedMs` the accumulated `asyncio.sleep` time. -/
structure VideoUpState where
  running : Bool
  iters : ℕ
  sendCount : ℕ
  elapsedMs : ℕ
deriving DecidableEq

/-- One iteration of the `while self.running` loop of `capture_and_send_video`
(main.py lines 129-155): an empty poll sleeps 100 ms (line 135); a successful
send is followed by the unconditional throttle `asyncio.sleep(1.0 / VIDEO_FPS)`
(line 151), i.e. 1000 ms at 1 FPS; an exception is logged and followed by a
500 ms backoff (line 155). -/
def videoUpStep (st : VideoUpState) : VideoEvent → VideoUpState
  | .empty => { st with iters := st.iters + 1, elapsedMs := st.elapsedMs + 100 }
  | .frame => { st with iters := st.iters + 1, sendCount := st.sendCount + 1, elapsedMs := st.elapsedMs + 1000 / VIDEO_FPS }
  | .raised => { st with iters := st.iters + 1, elapsedMs := st.elapsedMs + 500 }

/-- State on entering the video-up loop. -/
def videoUpInit : VideoUpState := ⟨true, 0, 0, 0⟩

/-- The video-up duty cycle run over a finite trace of poll outcomes. -/
def videoUpRun (events : List VideoEvent) : VideoUpState :=
  events.foldl videoUpStep videoUpInit

theorem videoUp_invariant (events : List VideoEvent) :
    ∀ st : VideoUpState, 1000 * st.sendCount ≤ st.elapsedMs →
      1000 * (events.foldl videoUpStep st).sendCount
        ≤ (events.foldl videoUpStep st).elapsedMs := by
  induction events with
  | nil => exact fun st h => h
  | cons e rest ih =>
    intro st h
    cases e <;>
      exact ih _ (by simp [videoUpStep, VIDEO_FPS]; omega)

/-- C5: the video-up duty cycle never sends more than one frame per throttle
interval.  Every send is followed by the full `1/VIDEO_FPS` sleep, so over any
trace of poll outcomes — in particular one where a frame is available on every
poll — the number of sends is at most `elapsed_seconds + 1`, where elapsed
time is the accumulated sleep of the run. -/
theorem videoUp_rate_capped (events : List VideoEvent) :
    (videoUpRun events).sendCount ≤ (videoUpRun events).elapsedMs / 1000 + 1 := by
  have h := videoUp_invariant events videoUpInit (by simp [videoUpInit])
  have h2 : (videoUpRun events).sendCount ≤ (videoUpRun events).elapsedMs / 1000 := by
    rw [Nat.le_div_iff_mul_le (by norm_num)]
    calc (videoUpRun events).sendCount * 1000
        = 1000 * (videoUpRun events).sendCount := by ring
      _ ≤ (videoUpRun events).elapsedMs := h
  omega

theorem audioUp_empty_run (r n : ℕ) :
    ∀ st : AudioUpState,
      (((List.replicate n AudioEvent.empty).foldl (audioUpStep r) st).running
          = st.running)
        ∧ (((List.replicate n AudioEvent.empty).foldl (audioUpStep r) st).iters
            = st.iters + n)
        ∧ (((List.replicate n AudioEvent.empty).foldl (audioUpStep r) st).sends
            = st.sends)
        ∧ (((List.replicate n AudioEvent.empty).foldl (audioUpStep r) st).errors
            = st.errors)
        ∧ (((List.replicate n AudioEvent.empty).foldl (audioUpStep r) st).sleepMs
            = st.sleepMs + 10 * n) := by
  induction n with
  | zero => intro st; simp
  | succ k ih =>
    intro st
    have h := ih { st with iters := st.iters + 1, sleepMs := st.sleepMs + 10 }
    simp only [List.replicate_succ, List.foldl_cons, audioUpStep] at h ⊢
    refine ⟨h.1, ?_, h.2.2.1, h.2.2.2.1, ?_⟩
    · rw [h.2.1]
      omega
    · rw [h.2.2.2.2]
      omega

theorem videoUp_empty_run (n : ℕ) :
    ∀ st : VideoUpState,
      (((List.replicate n VideoEvent.empty).foldl videoUpStep st).running
          = st.running)
        ∧ (((List.replicate n VideoEvent.empty).foldl videoUpStep st).iters
            = st.iters + n)
        ∧ (((List.replicate n VideoEvent.empty).foldl videoUpStep st).sendCount
            = st.sendCount)
        ∧ (((List.replicate n VideoEvent.empty).foldl videoUpStep st).elapsedMs
            = st.elapsedMs + 100 * n) := by
  induction n with
  | zero => intro st; simp
  | succ k ih =>
    intro st
    have h := ih { st with iters := st.iters + 1, elapsedMs := st.elapsedMs + 100 }
    simp only [List.replicate_succ, List.foldl_cons, videoUpStep] at h ⊢
    refine ⟨h.1, ?_, h.2.2.1, ?_⟩
    · rw [h.2.1]
      omega
    · rw [h.2.2.2]
      omega

/-- C8: an empty device poll is not an error.  An arbitrarily long run of `n`
empty polls leaves both upstream duty cycles looping: the audio-up cycle
completes all `n` iterations with a bounded 10 ms sleep each, sends nothing,
logs no error, and `running` remains true; the video-up cycle likewise
completes all `n` iterations with a bounded 100 ms sleep each, sends nothing,
and `running` remains true.  Neither cycle exits and neither flips RunState. -/
theorem empty_polls_never_exit (r n : ℕ) :
    ((audioUpRun r (List.replicate n AudioEvent.empty)).running = true
      ∧ (audioUpRun r (List.replicate n AudioEvent.empty)).iters = n
      ∧ (audioUpRun r (List.replicate n AudioEvent.empty)).sends = []
      ∧ (audioUpRun r (List.replicate n AudioEvent.empty)).errors = 0
      ∧ (audioUpRun r (List.replicate n AudioEvent.empty)).sleepMs = 10 * n)
    ∧ ((videoUpRun (List.replicate n VideoEvent.empty)).running = true
      ∧ (videoUpRun (List.replicate n VideoEvent.empty)).iters = n
      ∧ (videoUpRun (List.replicate n VideoEvent.empty)).sendCount = 0
      ∧ (videoUpRun (List.replicate n VideoEvent.empty)).elapsedMs = 100 * n) := by
  have ha := audioUp_empty_run r n audioUpInit
  have hv := videoUp_empty_run n videoUpInit
  constructor
  · simpa [audioUpRun, audioUpInit] using ha
  · simpa [videoUpRun, videoUpInit] using hv

/-- Cleanup calls of `stop` (main.py lines 77-89) in source order:
`self.running = False`, `session.close()`, `media.stop_recording()`,
`media.stop_playing()`, `reachy.__exit__`. -/
inductive StopStep where
  | setRunningFalse
  | closeSession
  | stopRecording
  | stopPlaying
  | exitReachy
deriving DecidableEq, Fintype

/-- The environment `stop` runs against: whether `self.session` and
`self.reachy` were acquired (they are `None` before `start` sets them), and
which of the cleanup calls raises an exception. -/
structure StopBehavior where
  sessionOpen : Bool
  reachyOpen : Bool
  closeRaises : Bool
  stopRecordingRaises : Bool
  stopPlayingRaises : Bool
  exitRaises : Bool
deriving DecidableEq

/-- The device half of `stop` (main.py lines 84-87): `stop_recording()`,
`stop_playing()`, `__exit__`, executed in order with Python exception
semantics — a raise aborts the remaining calls and propagates.  Returns the
attempted calls and whether an exception propagated. -/
def stopReachyPart (b : StopBehavior) : List StopStep × Bool :=
  if b.reachyOpen then
    if b.stopRecordingRaises then ([.stopRecording], true)
    else if b.stopPlayingRaises then ([.stopRecording, .stopPlaying], true)
    else if b.exitRaises then ([.stopRecording, .stopPlaying, .exitReachy], true)
    else ([.stopRecording, .stopPlaying, .exitReachy], false)
  else ([], false)

/-- `stop` (main.py lines 77-89), invoked exactly once by the `finally` of
`run` (line 221) on every transition into Stopped.  It sets
`self.running = False`, closes the session if open, then runs the device
half.  There is no try/except or per-step shielding inside `stop`: an
exception in `session.close()` aborts everything after it. -/
def stop (b : StopBehavior) : List StopStep × Bool :=
  if b.sessionOpen then
    if b.closeRaises then ([.setRunningFalse, .closeSession], true)
    else ([StopStep.setRunningFalse, StopStep.closeSession] ++ (stopReachyPart b).1,
      (stopReachyPart b).2)
  else ([StopStep.setRunningFalse] ++ (stopReachyPart b).1, (stopReachyPart b).2)

/-- C3 counterexample: with session and device both open, if `session.close()`
raises then `stop` never attempts `stop_recording` or `stop_playing` and the
exception propagates — cleanup is short-circuited, contradicting the claim
that each step executes even when a prior step raised. -/
theorem stop_short_circuits :
    (StopStep.stopRecording ∉ (stop ⟨true, true, true, false, false, false⟩).1)
      ∧ (StopStep.stopPlaying ∉ (stop ⟨true, true, true, false, false, false⟩).1)
      ∧ (stop ⟨true, true, true, false, false, false⟩).2 = true := by
  decide

/-- C3 amended: `stop` always begins by setting RunState false, and no
cleanup call is attempted more than once per invocation; when no call raises
(and both resources are open) it executes RunState-false, session close, stop
recording, stop playing, device release in exactly that order, each exactly
once; but the sequence is short-circuited, not best-effort: an exception in
the session close aborts the device steps and propagates out of `stop`. -/
theorem stop_spec (b : StopBehavior) :
    ((stop b).1.head? = some StopStep.setRunningFalse)
    ∧ (∀ step : StopStep, (stop b).1.count step ≤ 1)
    ∧ (b.sessionOpen = true → b.reachyOpen = true → b.closeRaises = false →
        b.stopRecordingRaises = false → b.stopPlayingRaises = false →
        b.exitRaises = false →
        (stop b).1 = [StopStep.setRunningFalse, StopStep.closeSession,
          StopStep.stopRecording, StopStep.stopPlaying, StopStep.exitReachy]
          ∧ (stop b).2 = false)
    ∧ (b.sessionOpen = true → b.closeRaises = true →
        (stop b).1 = [StopStep.setRunningFalse, StopStep.closeSession]
          ∧ (stop b).2 = true) := by
  obtain ⟨so, ro, cr, srr, spr, er⟩ := b
  cases so <;> cases ro <;> cases cr <;> cases srr <;> cases spr <;> cases er <;>
    decide

theorem stop_spec_witness :
    (stop ⟨true, true, false, false, false, false⟩).1
      = [StopStep.setRunningFalse, StopStep.closeSession, StopStep.stopRecording,
         StopStep.stopPlaying, StopStep.exitReachy] :=
  ((stop_spec ⟨true, true, false, false, false, false⟩).2.2.1
    rfl rfl rfl rfl rfl rfl).1

/-- Result of `main()` (main.py lines 224-232) as decided by the credential
check: `earlyError c` means the error message was printed and `main` returned
before constructing `ReachyGeminiChat`, the process then finishing with exit
status `c`; `proceed` means the run (device acquisition, session connect,
duty cycles) was started. -/
inductive MainOutcome where
  | earlyError (exitCode : ℕ)
  | proceed
deriving DecidableEq

/-- Python truthiness of `not os.getenv(key)` at main.py line 226: the
variable is missing (`None`) or set to the empty string.  The value is
modelled as an optional list of characters. -/
def envFalsy : Option (List Char) → Bool
  | none => true
  | some s => s.isEmpty

/-- main.py lines 224-232: `main()` checks the credential first; when it is
falsy the error is printed and `main` returns — a plain `return`, so
`asyncio.run(main())` finishes normally and the interpreter exits with
status 0.  Only otherwise is `ReachyGeminiChat()` constructed and `run()`
awaited. -/
def mainEntry (apiKey : Option (List Char)) : MainOutcome :=
  if envFalsy apiKey then .earlyError 0 else .proceed

/-- C9 counterexample: with the credential absent `main` reports the error
and attempts no partial run, but it exits via a plain `return`: the process
exit status is 0, never a non-zero one — refuting the claim's
"exits non-zero-equivalent" clause. -/
theorem main_missing_key_exits_zero :
    mainEntry none = MainOutcome.earlyError 0
      ∧ ∀ c : ℕ, mainEntry none = MainOutcome.earlyError c → c = 0 := by
  constructor
  · rfl
  · intro c hc
    have h0 : MainOutcome.earlyError 0 = MainOutcome.earlyError c := by
      rw [← hc]
      rfl
    injection h0 with h1
    omega

/-- C9 amended: if the required credential is absent from the process
environment (or empty), startup fails immediately with a reported error and
no partial run is attempted — no device acquisition, no session connect, no
duty cycle starts — but the process exits with status 0 via a normal return,
not a non-zero-equivalent status. -/
theorem main_requires_key (apiKey : Option (List Char))
    (h : envFalsy apiKey = true) :
    mainEntry apiKey = MainOutcome.earlyError 0
      ∧ mainEntry apiKey ≠ MainOutcome.proceed := by
  unfold mainEntry
  rw [h]
  exact ⟨rfl, by simp⟩

theorem main_requires_key_witness :
    envFalsy none = true ∧ mainEntry none = MainOutcome.earlyError 0 :=
  ⟨rfl, (main_requires_key none rfl).1⟩

end GeminiLive
